import Mathlib

/-!
Verification development for the morningChats call-session orchestration core
(`src/routes/gather.js`, `src/routes/voice.js`).

The JavaScript source is shallowly embedded: every text classifier
(`isVoicemailMessage`, `isSessionEnding`, the `needsTools` and commitment
regexes, the insight extractor) is translated into an executable Lean
function over `List Char` / `String`; the stateful route handlers
(`handleGather`, `handleSessionEnd`, `handleVoice`) become pure functions
from an oracle environment (the results of the external collaborators:
LLM reply generation, Notion, calendar, Mongo log, session persistence)
and an explicit world state (session store, conversation context store,
log sinks) to a response directive plus the updated world.

Modelling conventions:
  - JavaScript regexes are translated pattern by pattern into executable
    matchers.  `.` in a JS regex does not match a newline, so the gap in
    translated `A.*B` patterns is a run of non-newline characters.
    `\s` is modelled by the ASCII whitespace characters (space, tab, LF,
    VT, FF, CR); `\w` by `[A-Za-z0-9_]`; the `/i` flag by lowercasing the
    scrutinee with `Char.toLower` (which, for the ASCII texts involved,
    agrees with JS `toLowerCase`).
  - `Promise` rejection (a thrown exception in an `async` handler) is
    modelled with `Except String`; the JS `try`/`catch` blocks become
    matches on that result.  Side effects performed before a throw are
    kept, so every stateful step threads the world explicitly.
  - `Math.random` and the clock are modelled as oracle fields of the
    environment.
-/

/-- Apostrophe character (U+0027), used to build string literals that
contain one. -/
def apoc : Char := Char.ofNat 39

/-- String consisting of a single apostrophe. -/
def apS : String := String.mk [apoc]

/-- Newline character. -/
def nlc : Char := Char.ofNat 10

/-- The characters matched by the JS regex class `\s` (ASCII range):
space, tab, LF, VT, FF, CR. -/
def isJsSpace (c : Char) : Bool :=
  c.toNat = 32 || c.toNat = 9 || c.toNat = 10 || c.toNat = 11 || c.toNat = 12 || c.toNat = 13

/-- The characters matched by the JS regex class `\d`. -/
def isDigitC (c : Char) : Bool :=
  48 ≤ c.toNat && c.toNat ≤ 57

/-- The characters matched by the JS regex class `\w` (ASCII word chars). -/
def isWordC (c : Char) : Bool :=
  isDigitC c || (65 ≤ c.toNat && c.toNat ≤ 90) || (97 ≤ c.toNat && c.toNat ≤ 122) || c.toNat = 95

/-- JS `String.prototype.toLowerCase` on one character (ASCII range);
this is exactly core `Char.toLower`. -/
def jsToLowerC (c : Char) : Char := Char.toLower c

/-- JS `toLowerCase` on a character list. -/
def jsToLowerL (l : List Char) : List Char := l.map jsToLowerC

/-- Drop trailing JS whitespace. -/
def dropTrailSpace (l : List Char) : List Char :=
  ((l.reverse).dropWhile isJsSpace).reverse

/-- JS `String.prototype.trim` on a character list. -/
def jsTrimL (l : List Char) : List Char :=
  dropTrailSpace (l.dropWhile isJsSpace)

/-- JS `trim` on a string. -/
def jsTrimS (s : String) : String := String.mk (jsTrimL s.data)

/-- JS `a || b` for an optional string (`undefined` and the empty string
are falsy). -/
def jsOrS (o : Option String) (d : String) : String :=
  match o with
  | none => d
  | some s => if s.data = [] then d else s

/-- Does `pat` occur as a prefix of `text`? -/
def startsWithL : List Char → List Char → Bool
  | [], _ => true
  | _ :: _, [] => false
  | p :: ps, c :: cs => (p = c) && startsWithL ps cs

/-- Does `pat` occur as a (contiguous) substring of `text`?  This is the
semantics of an unanchored JS regex `test` against a literal pattern. -/
def containsL (pat : List Char) : List Char → Bool
  | [] => startsWithL pat []
  | c :: rest => startsWithL pat (c :: rest) || containsL pat rest

/-- Fuel-based worker for `chainAfter` (structural recursion on the
fuel, which the wrapper sets high enough that it never runs out: every
recursive call reduces the pattern count or the text length). -/
def chainAfterF : Nat → List (List Char) → List Char → Bool
  | _, [], _ => true
  | 0, _ :: _, _ => false
  | fuel + 1, pat :: pats, text =>
    (startsWithL pat text && chainAfterF fuel pats (text.drop pat.length)) ||
    (match text with
     | [] => false
     | c :: rest => !(c = nlc) && chainAfterF fuel (pat :: pats) rest)

/-- Matcher for the tail of a JS regex of the form `.*L1.*L2...` after
some prefix already matched: each literal `Li` must occur in order, and
the gaps consumed by `.*` may not contain a newline. -/
def chainAfter (pats : List (List Char)) (text : List Char) : Bool :=
  chainAfterF (pats.length + text.length) pats text

/-- Fuel-based worker for `chainFind`. -/
def chainFindF : Nat → List (List Char) → List Char → Bool
  | _, [], _ => true
  | 0, _ :: _, _ => false
  | fuel + 1, pat :: pats, text =>
    (startsWithL pat text && chainAfterF fuel pats (text.drop pat.length)) ||
    (match text with
     | [] => false
     | _ :: rest => chainFindF fuel (pat :: pats) rest)

/-- Matcher for an unanchored JS regex `L1.*L2...*Ln`: the first literal
may start anywhere (text before a regex match is unconstrained), the
later literals follow with newline-free gaps. -/
def chainFind (pats : List (List Char)) (text : List Char) : Bool :=
  chainFindF (pats.length + text.length) pats text

/-- Consume exactly `n` characters matching `\d`. -/
def eatDigits : Nat → List Char → Option (List Char)
  | 0, l => some l
  | _ + 1, [] => none
  | n + 1, c :: rest => if isDigitC c then eatDigits n rest else none

/-- Consume the JS regex `[-.]?` (optional dash-or-period separator). -/
def eatSep (l : List Char) : List Char :=
  match l with
  | [] => []
  | c :: rest => if c = '-' || c = '.' then rest else l

/-- Accept the end of a pattern of shape `\.?$`. -/
def endOptDot (l : List Char) : Bool :=
  l = [] || l = [ '.' ]

/-- Anchored JS regex `^\d{3}[-.]?\d{3}[-.]?\d{4}\.?$` from
`isVoicemailMessage` (phone-number shape; `\d` and `[-.]` are disjoint,
so the translation is deterministic). -/
def phone334 (l : List Char) : Bool :=
  match eatDigits 3 l with
  | none => false
  | some r1 =>
    match eatDigits 3 (eatSep r1) with
    | none => false
    | some r2 =>
      match eatDigits 4 (eatSep r2) with
      | none => false
      | some r3 => endOptDot r3

/-- Anchored JS regex `^\d{3}\s*\d{3}\.?$` (the "866 200." fragment
check used both as an early return and as a listed pattern). -/
def pat333 (l : List Char) : Bool :=
  match eatDigits 3 l with
  | none => false
  | some r1 =>
    match eatDigits 3 (r1.dropWhile isJsSpace) with
    | none => false
    | some r2 => endOptDot r2

/-- Anchored JS regex `^\d{2,4}\s*\d{2,4}\.?$` (two short digit groups);
the bounded repetitions are expanded into the finitely many lengths. -/
def twoGroups24 (l : List Char) : Bool :=
  [2, 3, 4].any (fun k =>
    match eatDigits k l with
    | none => false
    | some r1 =>
      let r2 := r1.dropWhile isJsSpace
      [2, 3, 4].any (fun j =>
        match eatDigits j r2 with
        | none => false
        | some r3 => endOptDot r3))

/-- Anchored JS regex `^\d{3,10}\.?$` (`isShortNumeric`): since `\d`
cannot match `.` or the end, the digit group is exactly the maximal
leading digit run. -/
def shortNumeric (l : List Char) : Bool :=
  let p := l.span isDigitC
  3 ≤ p.1.length && p.1.length ≤ 10 && endOptDot p.2

/-- Anchored JS regex `^\d+[\s.]*\d*\.?$` (`isJustNumbers`): maximal-run
decomposition is complete because the three character classes involved
are pairwise disjoint apart from the final optional period, which the
trailing check absorbs. -/
def justNumbers (l : List Char) : Bool :=
  let p := l.span isDigitC
  decide (p.1 ≠ []) &&
    (let q := p.2.span (fun c => isJsSpace c || c = '.')
     let r := q.2.span isDigitC
     endOptDot r.2)

/-- Literal "can't come to" (built explicitly because of the apostrophe). -/
def litCantComeTo : List Char := "can".data ++ [apoc] ++ "t come to".data

/-- Literal "you've reached". -/
def litYouveReached : List Char := "you".data ++ [apoc] ++ "ve reached".data

/-- Literal "that's it". -/
def litThatsIt : List Char := "that".data ++ [apoc] ++ "s it".data

/-- Literal "i'm done". -/
def litImDone : List Char := "i".data ++ [apoc] ++ "m done".data

/-- The `voicemailPatterns` array of `isVoicemailMessage`, one matcher per
JS regex, in source order.  Every matcher is applied (as in the source)
to the lowercased, untrimmed utterance. -/
def voicemailPatterns : List (List Char → Bool) :=
  [ chainFind ["not available".data, "leave".data, "message".data],
    chainFind [litCantComeTo, "phone".data],
    chainFind ["leave".data, "message".data, "after".data, "tone".data],
    chainFind ["press".data, "for".data, "delivery".data, "options".data],
    chainFind ["nothing".data, "recorded".data, "hang".data, "up".data],
    chainFind ["message".data, "after".data, "tone".data, "hang".data, "up".data],
    chainFind ["simply".data, "hang".data, "up".data],
    chainFind ["your".data, "message".data, "after".data, "beep".data],
    chainFind ["please".data, "leave".data, "your".data, "name".data],
    chainFind ["mailbox".data, "full".data],
    chainFind ["unavailable".data, "right".data, "now".data],
    phone334,
    fun l => startsWithL litYouveReached l || startsWithL "youve reached".data l,
    fun l => startsWithL "this is".data l &&
      (chainAfter ["voicemail".data] (l.drop 7) || chainAfter ["message".data] (l.drop 7)),
    fun l => startsWithL "hello".data l && chainAfter ["not here".data] (l.drop 5),
    fun l => startsWithL "sorry".data l && chainAfter ["missed".data, "call".data] (l.drop 5),
    pat333,
    twoGroups24,
    startsWithL "at the tone".data,
    startsWithL "please record".data,
    chainFind ["when you have finished recording".data, "hang up".data],
    containsL "you may hang up".data,
    chainFind ["recording".data, "hang up".data] ]

/-- The function `isVoicemailMessage` of `src/routes/gather.js`: first the
early `^\d{3}\s*\d{3}\.?$` check on the trimmed input, then the
short-numeric, just-numbers and automated-message checks. -/
def isVoicemailMessage (userInput : String) : Bool :=
  let trimmedInput := jsTrimL userInput.data
  if pat333 trimmedInput then true
  else
    let shortNum := shortNumeric trimmedInput
    let justNum := justNumbers trimmedInput
    let automated := voicemailPatterns.any (fun p => p (jsToLowerL userInput.data))
    automated || shortNum || justNum

/-- Matcher for the anchored JS shape
`^(alt1|alt2|...)\s*(opt1|opt2|...)?$`: one of the first alternatives as
a prefix, optional whitespace, then optionally one of the second
alternatives, then the end.  The second alternatives start with
non-whitespace characters, so consuming the maximal whitespace run is
complete. -/
def startThenOpt (alts1 alts2 : List (List Char)) (l : List Char) : Bool :=
  alts1.any (fun a =>
    startsWithL a l &&
      (let r := (l.drop a.length).dropWhile isJsSpace
       decide (r = []) || alts2.any (fun b => b = r)))

/-- The `endPhrases` array of `isSessionEnding`, one matcher per JS
regex, in source order; matchers are applied to the lowercased trimmed
utterance (the source applies `/i` patterns to the trimmed input). -/
def endPhrases : List (List Char → Bool) :=
  [ fun l => [ "no".data, "nothing else".data, litThatsIt, "thats it".data,
      litImDone, "im done".data, "all set".data, "wrap up".data,
      "finished".data, "bye".data, "goodbye".data ].any (fun a => a = l),
    startThenOpt
      [ "good".data, "ok".data, "sounds good".data, "alright".data, "perfect".data ]
      [ "bye".data, "goodbye".data, "thanks".data ],
    startThenOpt
      [ "thanks".data, "thank you".data, "appreciate it".data ]
      [ "bye".data, "goodbye".data ],
    fun l => containsL "end call".data l || containsL "hang up".data l ||
      containsL "gotta go".data l || containsL "have to go".data l,
    fun l => containsL "see you tomorrow".data l || containsL "talk tomorrow".data l ||
      containsL "tomorrow".data l ]

/-- The function `isSessionEnding` of `src/routes/gather.js`. -/
def isSessionEnding (userInput : String) : Bool :=
  endPhrases.any (fun p => p (jsToLowerL (jsTrimL userInput.data)))

/-- Word-boundary acceptance for the character adjacent to a `\b`
position (`none` = text edge). -/
def boundaryOkP (oc : Option Char) : Bool :=
  match oc with
  | none => true
  | some c => !(isWordC c)

/-- Head of a character list, if any. -/
def headOpt (l : List Char) : Option Char :=
  match l with
  | [] => none
  | c :: _ => some c

/-- Last element of a character list, if any. -/
def lastOpt (l : List Char) : Option Char :=
  match l.reverse with
  | [] => none
  | c :: _ => some c

/-- Occurrence of `w` bracketed by `\b` on both sides, scanning with the
previous character tracked. -/
def containsWordAux (w : List Char) : Option Char → List Char → Bool
  | prev, [] => boundaryOkP prev && startsWithL w []
  | prev, c :: rest =>
    (boundaryOkP prev && startsWithL w (c :: rest) &&
      boundaryOkP (headOpt ((c :: rest).drop w.length))) ||
    containsWordAux w (some c) rest

/-- JS `\bw\b` (unanchored, case already folded by the caller). -/
def containsWord (w : List Char) (text : List Char) : Bool :=
  containsWordAux w none text

/-- Tail matcher for `put.*calendar\b`: find "calendar" after a
newline-free gap, with a word boundary after it. -/
def calendarTail : List Char → Bool
  | [] => false
  | c :: rest =>
    (startsWithL "calendar".data (c :: rest) &&
      boundaryOkP (headOpt ((c :: rest).drop 8))) ||
    (!(c = nlc) && calendarTail rest)

/-- JS `\bput.*calendar\b` (one alternative of the tool-trigger regex). -/
def putCalAux : Option Char → List Char → Bool
  | _, [] => false
  | prev, c :: rest =>
    (boundaryOkP prev && startsWithL "put".data (c :: rest) &&
      calendarTail ((c :: rest).drop 3)) ||
    putCalAux (some c) rest

/-- The `needsTools` trigger regex
`/\b(add|create|schedule|remind|put.*calendar|todo)\b/i` of
`handleGather`. -/
def needsToolsCheck (userInput : String) : Bool :=
  let t := jsToLowerL userInput.data
  containsWord "add".data t || containsWord "create".data t ||
    containsWord "schedule".data t || containsWord "remind".data t ||
    putCalAux none t || containsWord "todo".data t

/-- The commitment regex `/\b(will|going to|plan to|commit|promise)\b/i`
of `handleGather`. -/
def commitmentCheck (userInput : String) : Bool :=
  let t := jsToLowerL userInput.data
  containsWord "will".data t || containsWord "going to".data t ||
    containsWord "plan to".data t || containsWord "commit".data t ||
    containsWord "promise".data t

/-- Case-insensitive prefix test: `pat` is given lowercased, the text is
folded character-wise (JS `/i`). -/
def startsWithCI : List Char → List Char → Bool
  | [], _ => true
  | _ :: _, [] => false
  | p :: ps, c :: cs => (p = jsToLowerC c) && startsWithCI ps cs

/-- Attempt one unit alternative of the duration regex at the current
position: case-insensitive literal followed by a word boundary. -/
def unitTryOne (u : List Char) (r : List Char) : Option Nat :=
  if startsWithCI u r && boundaryOkP (headOpt (r.drop u.length)) then some u.length else none

/-- The unit alternation `(minutes?|mins?|hours?|hrs?)\b` with the JS
backtracking order (greedy optional `s`, alternatives left to right). -/
def unitAt (r : List Char) : Option Nat :=
  (unitTryOne "minutes".data r) <|> (unitTryOne "minute".data r) <|>
  (unitTryOne "mins".data r) <|> (unitTryOne "min".data r) <|>
  (unitTryOne "hours".data r) <|> (unitTryOne "hour".data r) <|>
  (unitTryOne "hrs".data r) <|> (unitTryOne "hr".data r)

/-- Leftmost match of `/\b(\d+)\s*(minutes?|mins?|hours?|hrs?)\b/i`
(the `match[0]` text, original case).  A match can only start at a word
boundary followed by a digit; the digit and whitespace runs are maximal
(backtracking them can never help, since the classes are disjoint from
the unit heads). -/
def timeMatchAux : Option Char → List Char → Option (List Char)
  | _, [] => none
  | prev, c :: rest =>
    if boundaryOkP prev && isDigitC c then
      let p1 := (c :: rest).span isDigitC
      let p2 := p1.2.span isJsSpace
      match unitAt p2.2 with
      | some n => some (p1.1 ++ p2.1 ++ p2.2.take n)
      | none => timeMatchAux (some c) rest
    else timeMatchAux (some c) rest

/-- The duration mention extractor used by `extractSessionInsights`. -/
def timeMatch (msg : String) : Option String :=
  (timeMatchAux none msg.data).map String.mk

/-- Characters allowed inside the trailing group `[^.!?]*`. -/
def notSentEnd (c : Char) : Bool :=
  !(c = '.') && !(c = '!') && !(c = '?')

/-- One action-verb alternative as a case-insensitive prefix. -/
def awTry (u : List Char) (r : List Char) : Option Nat :=
  if startsWithCI u r then some u.length else none

/-- The alternation `(start|begin|do|work on|focus on)`; the heads are
pairwise distinct letters, so at most one alternative fits at any
position. -/
def actionWordAt (r : List Char) : Option Nat :=
  (awTry "start".data r) <|> (awTry "begin".data r) <|> (awTry "do".data r) <|>
  (awTry "work on".data r) <|> (awTry "focus on".data r)

/-- Full match of `\b(start|...)\s+([^.!?]*)` at the current position:
the verb, at least one whitespace character, then the greedy newline-through
run of non-sentence-ending characters.  Returns the match text and its
length. -/
def actionMatchAt (t : List Char) : Option (List Char × Nat) :=
  match actionWordAt t with
  | none => none
  | some n =>
    let sp := (t.drop n).span isJsSpace
    if sp.1.isEmpty then none
    else
      let body := sp.2.span notSentEnd
      let m := t.take n ++ sp.1 ++ body.1
      some (m, m.length)

/-- Fuel-based worker for `actionFindAux` (each step consumes at least
one character, so text length is enough fuel). -/
def actionFindAuxF : Nat → Option Char → List Char → List (List Char)
  | 0, _, _ => []
  | fuel + 1, prev, text =>
    match text with
    | [] => []
    | c :: rest =>
      if boundaryOkP prev then
        match actionMatchAt (c :: rest) with
        | some (m, k) => m :: actionFindAuxF fuel (lastOpt m) (rest.drop (k - 1))
        | none => actionFindAuxF fuel (some c) rest
      else actionFindAuxF fuel (some c) rest

/-- Scan for all matches of the global action regex
`/\b(start|begin|do|work on|focus on)\s+([^.!?]*)/gi`, resuming after
each match (JS `lastIndex` semantics). -/
def actionFindAux (prev : Option Char) (text : List Char) : List (List Char) :=
  actionFindAuxF text.length prev text

/-- One conversation message (an entry of the context store). -/
structure Msg where
  role : String
  content : String
deriving DecidableEq

/-- One recorded exchange (`session.addExchange`); the metadata fields
cover both call sites (`toolUsed`/`toolSuccess` from the turn processor,
`taskCount`/`eventCount` from call start). -/
structure Exchange where
  userText : String
  agentText : String
  toolUsed : Option String
  toolSuccess : Option Bool
  taskCount : Option Nat
  eventCount : Option Nat
deriving DecidableEq

/-- A habit of the day plan (`{text, title}` as used by the source:
`h.text || h.title` and `habit.text`). -/
structure HabitE where
  text : String
  title : Option String
deriving DecidableEq

/-- An event of the day plan; `start` is the epoch-millisecond value of
`new Date(e.start)`. -/
structure EventE where
  title : String
  start : Int
deriving DecidableEq

/-- Modelled from the spec: the per-call Session of §3 / §4.2
(`sessionManager.js` is not part of the sources).  `state` and
`sessionType` are the spec's enumerations, `exchanges` and `decisions`
the append-only records; `dayAnalysis` models the presence of
`sessionData.dayAnalysis` and `todaysPlan` the day-plan snapshot. -/
structure Session where
  state : String
  sessionType : String
  exchanges : List Exchange
  decisions : List String
  dayAnalysis : Bool
  todaysPlan : Option (List EventE × List HabitE)
deriving DecidableEq

/-- Modelled from the spec: a fresh session (`get` creates on first
access with the default `unknown` type, initial state
`initializing`). -/
def defaultSession : Session :=
  ⟨"initializing", "unknown", [], [], false, none⟩

/-- The insight summary produced at end of call. -/
structure Insights where
  date : String
  priorities : List String
  mood : String
  energyLevel : String
  notes : String
deriving DecidableEq

/-- First space-separated word of a habit text, lowercased
(`habit.text.toLowerCase().split(' ')[0]`). -/
def firstWordLower (s : String) : List Char :=
  (jsToLowerL s.data).takeWhile (fun c => !(c = ' '))

/-- Task mentions contributed by one user message: habit-name overlaps,
then a duration commitment, then action phrases — in source order. -/
def taskMentionsOf (session : Session) (msg : String) : List String :=
  (match session.todaysPlan with
   | some p => (p.2.filter (fun h =>
       containsL (firstWordLower h.text) (jsToLowerL msg.data))).map (fun h => h.text)
   | none => []) ++
  (match timeMatch msg with
   | some m => [m ++ " commitment made"]
   | none => []) ++
  ((actionFindAux none msg.data).map (fun m => jsTrimS (String.mk m)))

/-- Deduplication keeping the first occurrence (`[...new Set(l)]`). -/
def dedupFirstAux (seen : List String) : List String → List String
  | [] => []
  | s :: rest =>
    if seen.contains s then dedupFirstAux seen rest
    else s :: dedupFirstAux (s :: seen) rest

/-- JS `[...new Set(l)]`. -/
def dedupFirst (l : List String) : List String := dedupFirstAux [] l

/-- Positive-tone keyword set of the mood classifier. -/
def posWords : List (List Char) :=
  [ "good".data, "great".data, "excellent".data, "awesome".data, "ready".data,
    "excited".data, "energized".data, "yes".data, "absolutely".data, "perfect".data ]

/-- Negative/struggle keyword set. -/
def negWords : List (List Char) :=
  [ "tired".data, "slow".data, "difficult".data, "hard".data, "struggle".data,
    "overwhelmed".data, "no".data, "maybe".data, "unsure".data ]

/-- Neutral-affirmation keyword set. -/
def neutralWords : List (List Char) :=
  [ "ok".data, "fine".data, "decent".data, "normal".data, "alright".data, "sure".data ]

/-- Focus/urgency keyword set. -/
def focusWords : List (List Char) :=
  [ "focused".data, "concentrate".data, "priority".data, "important".data, "urgent".data ]

/-- Substring containment of any keyword (the JS alternation regexes of
the mood classifier have no anchors or boundaries). -/
def containsAnyL (ws : List (List Char)) (t : List Char) : Bool :=
  ws.any (fun w => containsL w t)

/-- The user-authored turns of a history (`role === 'user'`). -/
def userMessagesOf (conversationHistory : List Msg) : List String :=
  (conversationHistory.filter (fun m => m.role == "user")).map Msg.content

/-- The `combinedText` of the mood analysis: all user turns joined with a
space and lowercased. -/
def combinedUserText (conversationHistory : List Msg) : List Char :=
  jsToLowerL (String.intercalate " " (userMessagesOf conversationHistory)).data

/-- The mood/energy classification chain of `extractSessionInsights`:
four keyword sets tried in order, first match wins, default
Neutral/Medium. -/
def moodEnergyOf (combinedText : List Char) : String × String :=
  if containsAnyL posWords combinedText then ("Positive", "High")
  else if containsAnyL negWords combinedText then ("Low", "Low")
  else if containsAnyL neutralWords combinedText then ("Neutral", "Medium")
  else if containsAnyL focusWords combinedText then ("Focused", "High")
  else ("Neutral", "Medium")

/-- The function `extractSessionInsights` of `src/routes/gather.js`;
`today` stands for `new Date().toISOString().split('T')[0]`. -/
def extractSessionInsights (today : String) (conversationHistory : List Msg)
    (session : Session) : Insights :=
  let userMessages := userMessagesOf conversationHistory
  let taskMentions := (userMessages.map (taskMentionsOf session)).flatten
  let priorities := (dedupFirst taskMentions).take 3
  let moodEnergy := moodEnergyOf (combinedUserText conversationHistory)
  let mood := moodEnergy.1
  let energy := moodEnergy.2
  let commitments := session.decisions
  let keyPoints :=
    (if 0 < commitments.length then ["Made " ++ toString commitments.length ++ " commitments"] else []) ++
    (match priorities with
     | [] => []
     | p :: _ => ["Focus: " ++ p]) ++
    (if 3 < userMessages.length then ["Extended conversation"]
     else if 1 < userMessages.length then ["Brief interaction"]
     else [])
  let notesJ := String.intercalate ". " keyPoints
  let notes := if notesJ.data = [] then "Quick check-in completed" else notesJ
  ⟨today, priorities, mood, energy, notes⟩

/-- The fixed rotation of generic closing lines in `getEndingMessage`. -/
def endingMessages : List String :=
  [ "Good session. Execute those plans.", "Solid check-in. Make it happen.",
    "Plans set. Time to work.", "Clear priorities. Go execute.",
    "Session logged. Get after it." ]

/-- Shortening of a long priority for voice
(`substring(0,30).split(' ').slice(0,-1).join(' ')`). -/
def shortenPriority (priority : String) : String :=
  if 30 < priority.length then
    String.intercalate " " (((String.mk (priority.data.take 30)).splitOn " ").dropLast)
  else priority

/-- The function `getEndingMessage`; `randPick` models `Math.random`
(`Math.floor(Math.random() * messages.length)` becomes
`randPick % 5`). -/
def getEndingMessage (randPick : Nat) (insights : Insights) : String :=
  match insights.priorities with
  | [] => endingMessages.getD (randPick % 5) ""
  | p :: _ => shortenPriority p ++ " locked in. Execute."

/-- A structured action request returned by the reply-generation
collaborator (`llmResponse` with `type === 'tool_call'`). -/
structure ToolCallReq where
  action : String
  task : Option String
  title : Option String
  time : Option String
  originalResponse : Option String
deriving DecidableEq

/-- Result of `llmReplyWithTools`: either a tool call or free text. -/
inductive LlmToolsResult
  | tool (req : ToolCallReq)
  | text (content : String)
deriving DecidableEq

/-- Result record of `executeToolCall`. -/
structure ToolResult where
  tool : String
  success : Bool
  message : String
  item : Option String
deriving DecidableEq

/-- One record written by `log.insertOne` (timestamp elided). -/
structure LogRecord where
  callSid : String
  userInput : String
  assistantReply : String
  toolUsed : Option String
  toolSuccess : Option Bool
  sessionState : String
  source : String
deriving DecidableEq

/-- One element of a TwiML response: a spoken line, a keep-listening
gather directive, or a hangup directive. -/
inductive RespItem
  | say (text : String)
  | gather
  | hangup
deriving DecidableEq

/-- An HTTP response: status code and TwiML directives (empty for the
bare acknowledgements). -/
structure HttpResponse where
  status : Nat
  body : List RespItem
deriving DecidableEq

deriving instance DecidableEq for Except

/-- Oracle environment: the outcome each external collaborator would
produce during this invocation, plus configuration flags, clock and
randomness.  `Except.error` models a rejected promise. -/
structure Env where
  llmTools : Except String LlmToolsResult
  llmBasic : Except String String
  convResp : Except String String
  notionTasksDb : Bool
  googleCalToken : Bool
  notionLogsDb : Bool
  addTask : Except String Bool
  addEvent : Except String Bool
  logMissed : Except String Unit
  logInsert : Except String Unit
  endSessionOk : Except String Unit
  randPick : Nat
  today : String
  getTodayPlan : Except String (List EventE × List HabitE)
  clockHour : Nat
  nowMs : Int
deriving DecidableEq

/-- The request body fields the handlers read. -/
structure Request where
  callSid : String
  speechResult : Option String
  callStatus : Option String
  toNumber : String
deriving DecidableEq

/-- World state threaded through a handler invocation: the session
store, the conversation context store, and the external append-only
sinks (turn log, missed-call log, persisted final sessions). -/
structure World where
  sessions : List (String × Session)
  ctx : List (String × List Msg)
  logs : List LogRecord
  missedCalls : List (String × String)
  endedSessions : List (String × Session)
deriving DecidableEq

/-- Look up a key in an association list. -/
def lookupKey {α : Type} (k : String) : List (String × α) → Option α
  | [] => none
  | (k₁, v) :: rest => if k₁ = k then some v else lookupKey k rest

/-- Replace the binding of `k` (or append it). -/
def setKey {α : Type} (k : String) (v : α) : List (String × α) → List (String × α)
  | [] => [(k, v)]
  | (k₁, v₁) :: rest => if k₁ = k then (k, v) :: rest else (k₁, v₁) :: setKey k v rest

/-- Remove the binding of `k` (JS `Map.delete`: afterwards the key is
absent). -/
def removeKey {α : Type} (k : String) (l : List (String × α)) : List (String × α) :=
  l.filter (fun p => if p.1 = k then false else true)

/-- Modelled from the spec: `get(id)` of the Session Store (§4.2),
creating on first access. -/
def getSession (callSid : String) (w : World) : Session × World :=
  match lookupKey callSid w.sessions with
  | some s => (s, w)
  | none => (defaultSession, { w with sessions := setKey callSid defaultSession w.sessions })

/-- Store the (mutated) session back; models in-place mutation of the
live session object. -/
def putSession (callSid : String) (s : Session) (w : World) : World :=
  { w with sessions := setKey callSid s w.sessions }

/-- Modelled from the spec: `markVoicemail` (§4.2) sets
`sessionType = voicemail` and the terminal `voicemail` state. -/
def markAsVoicemail (s : Session) : Session :=
  { s with sessionType := "voicemail", state := "voicemail" }

/-- Modelled from the spec: `setState` (§4.2). -/
def setStateS (st : String) (s : Session) : Session :=
  { s with state := st }

/-- Modelled from the spec: `recordExchange` (§4.2), append-only. -/
def addExchangeS (u a : String) (tu : Option String) (ts : Option Bool)
    (tc ec : Option Nat) (s : Session) : Session :=
  { s with exchanges := s.exchanges ++ [⟨u, a, tu, ts, tc, ec⟩] }

/-- Modelled from the spec: `recordDecision` (§4.2), append-only. -/
def addDecisionS (d : String) (s : Session) : Session :=
  { s with decisions := s.decisions ++ [d] }

/-- Terminal session states (§4.4). -/
def isTerminalState (st : String) : Bool :=
  st = "ended" || st = "voicemail"

/-- Modelled from the spec: `end(id)` of the Session Store (§4.2) —
persist the final snapshot (state set to `ended` unless already
terminal), remove the live entry; a missing entry is a no-op.  The
persistence write can fail (`endSessionOk` oracle). -/
def endSessionW (env : Env) (callSid : String) (w : World) : Except String Unit × World :=
  match env.endSessionOk with
  | Except.error e => (Except.error e, w)
  | Except.ok _ =>
    match lookupKey callSid w.sessions with
    | none => (Except.ok (), w)
    | some s =>
      let s₁ := if isTerminalState s.state then s else { s with state := "ended" }
      (Except.ok (), { w with sessions := removeKey callSid w.sessions,
                              endedSessions := w.endedSessions ++ [(callSid, s₁)] })

/-- Set a context entry (`ctx.set`). -/
def ctxSet (callSid : String) (h : List Msg) (w : World) : World :=
  { w with ctx := setKey callSid h w.ctx }

/-- Clear a context entry (`ctx.clear`). -/
def ctxClear (callSid : String) (w : World) : World :=
  { w with ctx := removeKey callSid w.ctx }

/-- JS template interpolation of a possibly-undefined string. -/
def jsTemplate (o : Option String) : String := o.getD "undefined"

/-- The catch-all result of `executeToolCall`. -/
def somethingWrong (action : String) : ToolResult :=
  ⟨action, false, "Something went wrong.", none⟩

/-- The function `executeToolCall` of `src/routes/gather.js`; its
internal `try`/`catch` converts any dispatch failure into a failed
`ToolResult`, so it never throws. -/
def executeToolCall (env : Env) (tc : ToolCallReq) : ToolResult :=
  match tc.action with
  | "add_task" =>
    if env.notionTasksDb then
      match env.addTask with
      | Except.ok result =>
        ⟨"add_task", result,
          if result then "Added to your tasks." else "Task creation failed.", tc.task⟩
      | Except.error _ => somethingWrong "add_task"
    else ⟨"add_task", false, "Tasks not configured.", none⟩
  | "add_event" =>
    if env.googleCalToken then
      match env.addEvent with
      | Except.ok result =>
        ⟨"add_event", result,
          if result then "Added to your calendar." else "Calendar event failed.",
          some (jsTemplate tc.title ++ " at " ++ jsTemplate tc.time)⟩
      | Except.error _ => somethingWrong "add_event"
    else ⟨"add_event", false, "Calendar not configured.", none⟩
  | _ => ⟨"unknown", false, "Unknown action.", none⟩

/-- The decision text recorded on a successful tool dispatch. -/
def toolDecisionText (tr : ToolResult) (tc : ToolCallReq) : String :=
  "Added: " ++ jsOrS tr.item (jsOrS tc.task (jsOrS tc.title "undefined"))

/-- The fallback spoken reply of `handleGather`'s catch block. -/
def fallbackReply : String :=
  "Let" ++ apS ++ "s stay focused. What" ++ apS ++ "s your main priority?"

/-- The spoken line of the voicemail branch. -/
def vmHangupText : String :=
  "Voicemail detected. Call back when you can actually talk."

/-- The fallback closing line of `handleSessionEnd`'s catch block. -/
def sessionCompleteText : String := "Session complete. Talk tomorrow!"

/-- Tail of the normal-turn pipeline after the assistant reply is known:
context update, exchange and commitment recording, legacy log write
(which may throw), and the spoken-reply + keep-listening directive. -/
def finishTurn (env : Env) (req : Request) (userInput : String) (history1 : List Msg)
    (sess : Session) (toolResult : Option ToolResult) (assistantReply : String)
    (w : World) : Except String HttpResponse × World :=
  let callSid := req.callSid
  let history2 := history1 ++ [⟨"assistant", assistantReply⟩]
  let w₁ := ctxSet callSid history2 w
  let sess₂ := addExchangeS userInput assistantReply (toolResult.map ToolResult.tool)
    (toolResult.map ToolResult.success) none none sess
  let sess₃ := if commitmentCheck userInput then
      addDecisionS ("User commitment: " ++ userInput) sess₂
    else sess₂
  let w₂ := putSession callSid sess₃ w₁
  match env.logInsert with
  | Except.error e => (Except.error e, w₂)
  | Except.ok _ =>
    let logrec : LogRecord := ⟨callSid, userInput, assistantReply,
      toolResult.map ToolResult.tool, toolResult.map ToolResult.success,
      sess₃.state, "morningCoach"⟩
    (Except.ok ⟨200, [RespItem.say assistantReply, RespItem.gather]⟩,
     { w₂ with logs := w₂.logs ++ [logrec] })

/-- The body of `handleGather`'s `try` block (the normal-turn pipeline,
steps 4 of §4.3): session typing, history append, tool-trigger check,
reply generation with its internal contextual-path fallback, then
`finishTurn`.  An `Except.error` result models an exception reaching the
outer catch; the world at the throw point is preserved. -/
def normalTurn (env : Env) (req : Request) (userInput : String) (w : World) :
    Except String HttpResponse × World :=
  let callSid := req.callSid
  let p0 := getSession callSid w
  let sess0 := p0.1
  let w₁ := p0.2
  let history := (lookupKey callSid w₁.ctx).getD []
  let sess1 := if sess0.sessionType = "unknown" then
      { sess0 with sessionType := "conversation" }
    else sess0
  let w₂ := putSession callSid sess1 w₁
  let history1 := history ++ [⟨"user", userInput⟩]
  if needsToolsCheck userInput then
    match env.llmTools with
    | Except.error e => (Except.error e, w₂)
    | Except.ok (LlmToolsResult.tool tc) =>
      let toolResult := executeToolCall env tc
      let assistantReply := jsOrS tc.originalResponse
        (if toolResult.success then "Got it. " ++ toolResult.message
         else "Couldn" ++ apS ++ "t add that. " ++ toolResult.message)
      let sess2 := if toolResult.success then
          addDecisionS (toolDecisionText toolResult tc) sess1
        else sess1
      finishTurn env req userInput history1 sess2 (some toolResult) assistantReply w₂
    | Except.ok (LlmToolsResult.text content) =>
      finishTurn env req userInput history1 sess1 none content w₂
  else
    if sess1.dayAnalysis then
      match env.convResp with
      | Except.ok r => finishTurn env req userInput history1 sess1 none r w₂
      | Except.error _ =>
        match env.llmBasic with
        | Except.ok r => finishTurn env req userInput history1 sess1 none r w₂
        | Except.error e => (Except.error e, w₂)
    else
      match env.llmBasic with
      | Except.ok r => finishTurn env req userInput history1 sess1 none r w₂
      | Except.error e => (Except.error e, w₂)

/-- The function `handleSessionEnd` of `src/routes/gather.js`: extract
insights, mark the session `ending`, finalize, clear context, speak a
closing line and hang up; its catch block still hangs up with a generic
line. -/
def handleSessionEnd (env : Env) (callSid : String) (userInput : String) (w : World) :
    Except String HttpResponse × World :=
  let p0 := getSession callSid w
  let sess := p0.1
  let w₁ := p0.2
  let conversationHistory := (lookupKey callSid w₁.ctx).getD []
  let sessionInsights := extractSessionInsights env.today conversationHistory sess
  let w₂ := putSession callSid (setStateS "ending" sess) w₁
  match endSessionW env callSid w₂ with
  | (Except.error _, w₃) =>
    (Except.ok ⟨200, [RespItem.say sessionCompleteText, RespItem.hangup]⟩, w₃)
  | (Except.ok _, w₃) =>
    let w₄ := ctxClear callSid w₃
    let endMessage := getEndingMessage env.randPick sessionInsights
    (Except.ok ⟨200, [RespItem.say endMessage, RespItem.hangup]⟩, w₄)

/-- The function `handleGather` of `src/routes/gather.js`: voicemail
branch first, then session-end branch, then the terminal-status
acknowledgement (only `completed`/`no-answer`), then the guarded normal
turn whose failures become the fixed fallback reply. -/
def handleGather (env : Env) (req : Request) (w : World) :
    Except String HttpResponse × World :=
  let callSid := req.callSid
  let userInput := jsTrimS (jsOrS req.speechResult "")
  if isVoicemailMessage userInput then
    let p0 := getSession callSid w
    let w₁ := putSession callSid (markAsVoicemail p0.1) p0.2
    match (if env.notionLogsDb then
             match env.logMissed with
             | Except.ok _ => Except.ok
                 { w₁ with missedCalls := w₁.missedCalls ++ [(req.toNumber, "voicemail-answered")] }
             | Except.error e => Except.error e
           else Except.ok w₁ : Except String World) with
    | Except.error e => (Except.error e, w₁)
    | Except.ok w₂ =>
      match endSessionW env callSid w₂ with
      | (Except.error e, w₃) => (Except.error e, w₃)
      | (Except.ok _, w₃) =>
        let w₄ := ctxClear callSid w₃
        (Except.ok ⟨200, [RespItem.say vmHangupText, RespItem.hangup]⟩, w₄)
  else if isSessionEnding userInput then
    handleSessionEnd env callSid userInput w
  else if req.callStatus = some "completed" ∨ req.callStatus = some "no-answer" then
    match endSessionW env callSid w with
    | (Except.error e, w₁) => (Except.error e, w₁)
    | (Except.ok _, w₁) => (Except.ok ⟨200, []⟩, w₁)
  else
    match normalTurn env req userInput w with
    | (Except.ok r, w₁) => (Except.ok r, w₁)
    | (Except.error _, w₁) =>
      (Except.ok ⟨200, [RespItem.say fallbackReply, RespItem.gather]⟩, w₁)

/-- Modelled from the spec: the system persona prompt
(`prompts/systemPrompt.js` is not among the sources; no claim inspects
its content, only its position as the single leading `system` entry). -/
def systemPrompt : String :=
  "You are a dominant, results-driven life coach AI with a commanding yet supportive tone."

/-- Habit display name (`h.text || h.title || 'Task'`, truncated to 20
characters with an ellipsis). -/
def habitName (h : HabitE) : String :=
  let text := jsOrS (some h.text) (jsOrS h.title "Task")
  if 20 < text.length then String.mk (text.data.take 20) ++ "..." else text

/-- The function `generateDominantOpener` of `src/routes/voice.js`;
`clockHour` is `new Date().getHours()` and `nowMs` the current epoch
milliseconds.  `hoursUntil > 0 && hoursUntil < 3` on the float quotient
is equivalent to the integer bounds on the millisecond difference. -/
def generateDominantOpener (clockHour : Nat) (nowMs : Int) (habits : List HabitE)
    (events : List EventE) : String :=
  let greeting :=
    if clockHour < 7 then "Early. Good."
    else if clockHour < 8 then "On time. Let" ++ apS ++ "s work."
    else if clockHour < 9 then "Morning."
    else if clockHour < 10 then "Getting late."
    else "Already behind schedule."
  let soonEvents := events.filter (fun e =>
    0 < e.start - nowMs && e.start - nowMs < 3 * 3600000)
  let topHabits := habits.take 2
  let details :=
    (match soonEvents with
     | [] => []
     | nextEvent :: _ =>
       let minutesUntil := (nextEvent.start - nowMs) / 60000
       if minutesUntil < 60 then
         [nextEvent.title ++ " in " ++ toString minutesUntil ++ " minutes. Prep time."]
       else if minutesUntil < 90 then [nextEvent.title ++ " soon. Ready?"]
       else []) ++
    (match topHabits.map habitName with
     | [] => []
     | [n1] => [n1 ++ " needs doing."]
     | n1 :: n2 :: _ => [n1 ++ " and " ++ n2 ++ " waiting."])
  match details with
  | [] => greeting ++ " No excuses today. What" ++ apS ++ "s your focus?"
  | [d1] => greeting ++ " " ++ d1 ++ " Start now or explain why not."
  | _ => greeting ++ " " ++ String.intercalate " " details ++ " Pick one and commit."

/-- Escalation prompt of the voice handler. -/
def stillThereText : String := "Still there? Stop wasting time. What are you doing first?"

/-- Final fallback line of the voice handler. -/
def notRespondingText : String :=
  "Not responding counts as avoidance. Call me back when you are ready to work."

/-- Opener of the voice handler's catch block. -/
def voiceCatchOpener : String := "Morning. Time to work. What" ++ apS ++ "s first?"

/-- Hangup line of the voice handler's catch block. -/
def callBackText : String := "Call back when ready."

/-- The function `handleVoice` of `src/routes/voice.js`: terminal
statuses (`completed`/`no-answer`/`failed`) finalize the session and
clear the context with a bare acknowledgement; otherwise the day plan is
fetched, the session initialized and the dominant opener spoken, with a
fixed fallback on failure. -/
def handleVoice (env : Env) (req : Request) (w : World) :
    Except String HttpResponse × World :=
  let callSid := req.callSid
  let callStatus := req.callStatus
  if callStatus = some "completed" ∨ callStatus = some "no-answer" ∨
      callStatus = some "failed" then
    match endSessionW env callSid w with
    | (Except.error e, w₁) => (Except.error e, w₁)
    | (Except.ok _, w₁) => (Except.ok ⟨200, []⟩, ctxClear callSid w₁)
  else
    match env.getTodayPlan with
    | Except.ok plan =>
      let events := plan.1
      let habits := plan.2
      let p0 := getSession callSid w
      let sess1 := { p0.1 with todaysPlan := some (events, habits) }
      let w₁ := putSession callSid sess1 p0.2
      let opener := generateDominantOpener env.clockHour env.nowMs habits events
      let w₂ := ctxSet callSid [⟨"system", systemPrompt⟩, ⟨"assistant", opener⟩] w₁
      let sess2 := addExchangeS "SESSION_START" opener none none
        (some habits.length) (some events.length) sess1
      let sess3 := setStateS "overview" sess2
      let w₃ := putSession callSid sess3 w₂
      (Except.ok ⟨200, [RespItem.say opener, RespItem.gather, RespItem.say stillThereText,
        RespItem.gather, RespItem.say notRespondingText, RespItem.hangup]⟩, w₃)
    | Except.error _ =>
      let w₁ := ctxSet callSid [⟨"system", systemPrompt⟩, ⟨"assistant", voiceCatchOpener⟩] w
      (Except.ok ⟨200, [RespItem.say voiceCatchOpener, RespItem.gather,
        RespItem.say callBackText, RespItem.hangup]⟩, w₁)

/-- Does an `Except` result carry a say-then-hangup TwiML response? -/
def okSayHangup (r : Except String HttpResponse) : Bool :=
  match r with
  | Except.ok resp =>
    decide (resp.status = 200) &&
      (match resp.body with
       | [RespItem.say _, RespItem.hangup] => true
       | _ => false)
  | Except.error _ => false

/-- The empty world (no sessions, no context, empty sinks). -/
def emptyWorld : World := ⟨[], [], [], [], []⟩

/-- A baseline oracle environment in which every collaborator succeeds
and no integration is configured. -/
def baseEnv : Env :=
  ⟨Except.ok (LlmToolsResult.text "noted"), Except.ok "noted", Except.ok "noted",
   false, false, false, Except.ok true, Except.ok true, Except.ok (), Except.ok (),
   Except.ok (), 0, "2025-01-01", Except.ok ([], []), 7, 0⟩

/-- Concrete voicemail-priority scenario: an utterance matched by both
classifiers, missed-call logging configured. -/
def c1Req : Request := ⟨"CA1", some "you may hang up", some "in-progress", "+15550100"⟩

/-- Environment for the voicemail-priority scenario. -/
def c1Env : Env := { baseEnv with notionLogsDb := true }

/-- Concrete tool-dispatch scenario request
("add a reminder to call the dentist"). -/
def c4Req : Request :=
  ⟨"CA4", some "add a reminder to call the dentist", some "in-progress", "+15550100"⟩

/-- Environment for the tool-dispatch scenario: the reply generator
resolves to an `add_task` tool call with no free-text reply, the task
integration is configured and succeeds. -/
def c4Env : Env :=
  { baseEnv with
    llmTools := Except.ok (LlmToolsResult.tool
      ⟨"add_task", some "call the dentist", none, none, none⟩),
    notionTasksDb := true,
    addTask := Except.ok true }

/-- Request of the terminal-status scenario (status `completed`, no
speech). -/
def c5Req : Request := ⟨"CA5", none, some "completed", "+15550100"⟩

/-- World of the terminal-status scenario: a live session and a
non-empty conversation context for the call. -/
def c5World : World :=
  ⟨[("CA5", defaultSession)], [("CA5", [⟨"assistant", "hi"⟩])], [], [], []⟩

/-- Request of the failure-fallback scenario (a plain utterance). -/
def c6Req : Request := ⟨"CA6", some "hello", some "in-progress", "+15550100"⟩

/-- Environment for the failure-fallback scenario: every reply
generator rejects. -/
def c6Env : Env :=
  { baseEnv with
    llmTools := Except.error "llm unavailable",
    llmBasic := Except.error "llm unavailable",
    convResp := Except.error "llm unavailable" }

/-- Environment for the finalization-failure scenario: persisting the
session rejects. -/
def c7Env : Env := { baseEnv with endSessionOk := Except.error "mongo down" }

/-- History whose single user turn is "I'm exhausted, this is too
hard". -/
def exhaustedHistory : List Msg :=
  [⟨"user", "I" ++ apS ++ "m exhausted, this is too hard"⟩]

/-- Request of the tomorrow-routing scenario. -/
def c9Req : Request :=
  ⟨"CA9", some "put a meeting on the calendar tomorrow", some "in-progress", "+15550100"⟩

/-- Environment for the tomorrow-routing scenario: the reply generators
all reject, so a spoken non-fallback reply can only come from the
session-end path. -/
def c9Env : Env :=
  { baseEnv with
    llmTools := Except.error "llm unavailable",
    llmBasic := Except.error "llm unavailable",
    convResp := Except.error "llm unavailable" }

/-- Request with call-status `failed` (not treated as terminal by
`handleGather`). -/
def c5FailReq : Request := ⟨"CA5", some "hello", some "failed", "+15550100"⟩

/-- Request with call-status `failed` for the voice handler. -/
def c5VoiceReq : Request := ⟨"CA5V", none, some "failed", "+15550100"⟩

theorem toNat_ofNatAux (n : Nat) (h : n.isValidChar) : (Char.ofNatAux n h).toNat = n := by
  simp [Char.ofNatAux, Char.toNat, UInt32.toNat, UInt32.ofNatCore]

theorem jsToLowerC_toNat_of_upper (c : Char) (h1 : 65 ≤ c.toNat) (h2 : c.toNat ≤ 90) :
    (jsToLowerC c).toNat = c.toNat + 32 := by
  have hv : (c.toNat + 32).isValidChar := Or.inl (by omega)
  simp only [jsToLowerC, Char.toLower]
  rw [if_pos (by omega)]
  rw [Char.ofNat, dif_pos hv]
  exact toNat_ofNatAux _ hv

theorem jsToLowerC_eq_self_of_low (c : Char) (h : c.toNat < 65) : jsToLowerC c = c := by
  simp only [jsToLowerC, Char.toLower]
  rw [if_neg (by omega)]

theorem isJsSpace_lower (c : Char) : isJsSpace (jsToLowerC c) = isJsSpace c := by
  by_cases h : 65 ≤ c.toNat ∧ c.toNat ≤ 90
  · have h1 := jsToLowerC_toNat_of_upper c h.1 h.2
    have e1 : isJsSpace (jsToLowerC c) = false := by
      simp [isJsSpace, h1]
      omega
    have e2 : isJsSpace c = false := by
      simp [isJsSpace]
      omega
    rw [e1, e2]
  · rcases Nat.lt_or_ge c.toNat 65 with h1 | h1
    · rw [jsToLowerC_eq_self_of_low c h1]
    · have h2 : 90 < c.toNat := by omega
      have h3 : jsToLowerC c = c := by
        simp only [jsToLowerC, Char.toLower]
        rw [if_neg (by omega)]
      rw [h3]

theorem dropWhile_space_lower (l : List Char) :
    (jsToLowerL l).dropWhile isJsSpace = jsToLowerL (l.dropWhile isJsSpace) := by
  induction l with
  | nil => rfl
  | cons c cs ih =>
    by_cases h : isJsSpace c
    · simp [jsToLowerL, List.dropWhile_cons, isJsSpace_lower, h] at *
      exact ih
    · simp [jsToLowerL, List.dropWhile_cons, isJsSpace_lower, h]

theorem jsTrimL_lower_comm (l : List Char) :
    jsToLowerL (jsTrimL l) = jsTrimL (jsToLowerL l) := by
  unfold jsTrimL dropTrailSpace
  rw [dropWhile_space_lower]
  have h1 : ∀ m : List Char,
      jsToLowerL ((m.reverse.dropWhile isJsSpace).reverse) =
        (((jsToLowerL m).reverse.dropWhile isJsSpace)).reverse := by
    intro m
    have h2 : (jsToLowerL m).reverse = jsToLowerL m.reverse := by
      simp [jsToLowerL, List.map_reverse]
    rw [h2, dropWhile_space_lower]
    simp [jsToLowerL, List.map_reverse]
  exact h1 (l.dropWhile isJsSpace)

theorem startsWithL_iff (p l : List Char) :
    startsWithL p l = true ↔ ∃ t, l = p ++ t := by
  induction p generalizing l with
  | nil => simp [startsWithL]
  | cons a ps ih =>
    cases l with
    | nil =>
      simp [startsWithL]
    | cons c cs =>
      simp only [startsWithL, Bool.and_eq_true, decide_eq_true_eq, ih, List.cons_append,
        List.cons.injEq]
      constructor
      · rintro ⟨rfl, t, rfl⟩
        exact ⟨t, rfl, rfl⟩
      · rintro ⟨t, rfl, rfl⟩
        exact ⟨rfl, t, rfl⟩

theorem containsL_iff (p l : List Char) :
    containsL p l = true ↔ ∃ a b, l = a ++ p ++ b := by
  induction l with
  | nil =>
    simp [containsL, startsWithL_iff, eq_comm (a := ([] : List Char)), List.append_eq_nil]
  | cons c cs ih =>
    simp only [containsL, Bool.or_eq_true, startsWithL_iff, ih]
    constructor
    · rintro (⟨t, h⟩ | ⟨a, b, rfl⟩)
      · exact ⟨[], t, by simp [h]⟩
      · exact ⟨c :: a, b, by simp⟩
    · rintro ⟨a, b, h⟩
      cases a with
      | nil => exact Or.inl ⟨b, by simpa using h⟩
      | cons a0 as =>
        right
        refine ⟨as, b, ?_⟩
        simp only [List.cons_append] at h
        exact (List.cons.inj h).2

theorem containsL_of_rev (p l : List Char) (h : containsL p l = true) :
    containsL p.reverse l.reverse = true := by
  rw [containsL_iff] at h ⊢
  rcases h with ⟨a, b, rfl⟩
  exact ⟨b.reverse, a.reverse, by simp⟩

theorem containsL_dropWhile_space (p l : List Char) (hp : p ≠ [])
    (hsp : ∀ c ∈ p, isJsSpace c = false) (h : containsL p l = true) :
    containsL p (l.dropWhile isJsSpace) = true := by
  induction l with
  | nil => simpa [List.dropWhile] using h
  | cons c cs ih =>
    cases hc : isJsSpace c with
    | true =>
      rw [List.dropWhile_cons, if_pos hc]
      apply ih
      have hs : startsWithL p (c :: cs) = false := by
        rcases p with _ | ⟨q, qs⟩
        · exact absurd rfl hp
        · have hq : isJsSpace q = false := hsp q (List.mem_cons_self q qs)
          have hne : ¬ q = c := by
            intro he
            rw [he, hc] at hq
            exact Bool.noConfusion hq
          simp [startsWithL, hne]
      simpa [containsL, hs] using h
    | false => rw [List.dropWhile_cons, if_neg (by simp [hc])]; exact h

theorem containsL_dropTrailSpace (p l : List Char) (hp : p ≠ [])
    (hsp : ∀ c ∈ p, isJsSpace c = false) (h : containsL p l = true) :
    containsL p (dropTrailSpace l) = true := by
  have h1 : containsL p.reverse l.reverse = true := containsL_of_rev p l h
  have h2 : containsL p.reverse (l.reverse.dropWhile isJsSpace) = true := by
    apply containsL_dropWhile_space p.reverse l.reverse (by simpa) _ h1
    intro c hc
    exact hsp c (List.mem_reverse.mp hc)
  have h3 := containsL_of_rev p.reverse (l.reverse.dropWhile isJsSpace) h2
  rw [List.reverse_reverse] at h3
  exact h3

theorem containsL_jsTrimL (p l : List Char) (hp : p ≠ [])
    (hsp : ∀ c ∈ p, isJsSpace c = false) (h : containsL p l = true) :
    containsL p (jsTrimL l) = true := by
  unfold jsTrimL
  exact containsL_dropTrailSpace p _ hp hsp (containsL_dropWhile_space p l hp hsp h)

theorem lookupKey_setKey_self {α : Type} (k : String) (v : α) (l : List (String × α)) :
    lookupKey k (setKey k v l) = some v := by
  induction l with
  | nil => simp [setKey, lookupKey]
  | cons p rest ih =>
    by_cases h : p.1 = k
    · simp [setKey, h, lookupKey]
    · simp only [setKey]
      rw [if_neg h]
      simp only [lookupKey]
      rw [if_neg h]
      exact ih

theorem lookupKey_removeKey_self {α : Type} (k : String) (l : List (String × α)) :
    lookupKey k (removeKey k l) = none := by
  induction l with
  | nil => rfl
  | cons p rest ih =>
    by_cases h : p.1 = k
    · simp only [removeKey, List.filter_cons] at *
      rw [if_neg (by simp [h])]
      exact ih
    · simp only [removeKey, List.filter_cons] at *
      rw [if_pos (by simp [h])]
      simp only [lookupKey]
      rw [if_neg h]
      exact ih

/-- C3 counterexample: contrary to the claim, the end-intent classifier
rejects "that's it, thanks" — every `endPhrases` pattern that mentions
"that's it" is anchored to the whole (trimmed) utterance, and the
politeness pattern requires the utterance to BEGIN with the thanks
phrase. -/
theorem c3_counterexample :
    isSessionEnding ("that" ++ apS ++ "s it, thanks") = false := by decide

/-- C3 amended: `isSessionEnding` accepts the exact phrase "that's it"
but rejects "that's it, thanks"; it also rejects "add a task to call
mom" as the claim states. -/
theorem c3_theorem :
    isSessionEnding ("that" ++ apS ++ "s it") = true ∧
    isSessionEnding ("that" ++ apS ++ "s it, thanks") = false ∧
    isSessionEnding "add a task to call mom" = false := by decide

/-- C2 counterexample: the space-separated 3-3-4 grouping
"858 386 6200" is NOT classified as voicemail — the phone-number
pattern's separator class is `[-.]`, which does not include a space,
and no other pattern covers three space-separated digit groups. -/
theorem c2_counterexample :
    isVoicemailMessage "858 386 6200" = false := by decide

/-- C10: every string that trims to a non-empty all-digit form — of any
length, including a single digit — satisfies the just-numbers pattern
and is classified as voicemail by `isVoicemailMessage`. -/
theorem c10_theorem (s : String) (hne : jsTrimL s.data ≠ [])
    (hdig : ∀ c ∈ jsTrimL s.data, isDigitC c = true) :
    justNumbers (jsTrimL s.data) = true ∧ isVoicemailMessage s = true := by
  have hspan : (jsTrimL s.data).span isDigitC = (jsTrimL s.data, []) := by
    rw [List.span_eq_take_drop]
    rw [List.takeWhile_eq_self_iff.mpr hdig]
    rw [List.dropWhile_eq_nil_iff.mpr hdig]
  have hjn : justNumbers (jsTrimL s.data) = true := by
    simp only [justNumbers, hspan]
    simp [hne, endOptDot, List.span_eq_take_drop]
  refine ⟨hjn, ?_⟩
  cases h333 : pat333 (jsTrimL s.data) with
  | true => simp [isVoicemailMessage, h333]
  | false => simp [isVoicemailMessage, h333, hjn]

/-- C10 witness: the single digit "1" (below the 3–10-digit short-numeric
range) is classified as voicemail. -/
theorem c10_witness :
    jsTrimL "1".data ≠ [] ∧ (∀ c ∈ jsTrimL "1".data, isDigitC c = true) ∧
    (justNumbers (jsTrimL "1".data) = true ∧ isVoicemailMessage "1" = true) :=
  ⟨by decide, by decide, c10_theorem "1" (by decide) (by decide)⟩

/-- C8: the insight extractor classifies the concatenated user turns
against the four keyword sets with precedence positive → negative →
neutral → focus (first match wins) and defaults to Neutral/Medium; in
particular the history containing "I'm exhausted, this is too hard"
yields mood Low and energy Low. -/
theorem c8_theorem :
    (∀ (today : String) (hist : List Msg) (sess : Session),
      (containsAnyL posWords (combinedUserText hist) = true →
        (extractSessionInsights today hist sess).mood = "Positive" ∧
        (extractSessionInsights today hist sess).energyLevel = "High") ∧
      (containsAnyL posWords (combinedUserText hist) = false →
        containsAnyL negWords (combinedUserText hist) = true →
        (extractSessionInsights today hist sess).mood = "Low" ∧
        (extractSessionInsights today hist sess).energyLevel = "Low") ∧
      (containsAnyL posWords (combinedUserText hist) = false →
        containsAnyL negWords (combinedUserText hist) = false →
        containsAnyL neutralWords (combinedUserText hist) = true →
        (extractSessionInsights today hist sess).mood = "Neutral" ∧
        (extractSessionInsights today hist sess).energyLevel = "Medium") ∧
      (containsAnyL posWords (combinedUserText hist) = false →
        containsAnyL negWords (combinedUserText hist) = false →
        containsAnyL neutralWords (combinedUserText hist) = false →
        containsAnyL focusWords (combinedUserText hist) = true →
        (extractSessionInsights today hist sess).mood = "Focused" ∧
        (extractSessionInsights today hist sess).energyLevel = "High") ∧
      (containsAnyL posWords (combinedUserText hist) = false →
        containsAnyL negWords (combinedUserText hist) = false →
        containsAnyL neutralWords (combinedUserText hist) = false →
        containsAnyL focusWords (combinedUserText hist) = false →
        (extractSessionInsights today hist sess).mood = "Neutral" ∧
        (extractSessionInsights today hist sess).energyLevel = "Medium")) ∧
    ((extractSessionInsights "2025-01-01" exhaustedHistory defaultSession).mood = "Low" ∧
     (extractSessionInsights "2025-01-01" exhaustedHistory defaultSession).energyLevel = "Low") := by
  constructor
  · intro today hist sess
    refine ⟨?_, ?_, ?_, ?_, ?_⟩
    · intro h1
      constructor <;> simp [extractSessionInsights, moodEnergyOf, h1]
    · intro h1 h2
      constructor <;> simp [extractSessionInsights, moodEnergyOf, h1, h2]
    · intro h1 h2 h3
      constructor <;> simp [extractSessionInsights, moodEnergyOf, h1, h2, h3]
    · intro h1 h2 h3 h4
      constructor <;> simp [extractSessionInsights, moodEnergyOf, h1, h2, h3, h4]
    · intro h1 h2 h3 h4
      constructor <;> simp [extractSessionInsights, moodEnergyOf, h1, h2, h3, h4]
  · exact ⟨by decide, by decide⟩

/-- C8 witness: a negative-tone history ("I'm exhausted, this is too
hard") does not match the positive set, matches the negative set, and is
therefore classified Low/Low by the second precedence rule. -/
theorem c8_witness :
    containsAnyL posWords (combinedUserText exhaustedHistory) = false ∧
    containsAnyL negWords (combinedUserText exhaustedHistory) = true ∧
    ((extractSessionInsights "2025-01-01" exhaustedHistory defaultSession).mood = "Low" ∧
     (extractSessionInsights "2025-01-01" exhaustedHistory defaultSession).energyLevel = "Low") :=
  ⟨by decide, by decide,
    ((c8_theorem.1 "2025-01-01" exhaustedHistory defaultSession).2.1 (by decide) (by decide))⟩

theorem eatDigits_exact (g r : List Char) (hg : ∀ c ∈ g, isDigitC c = true) :
    eatDigits g.length (g ++ r) = some r := by
  induction g with
  | nil => rfl
  | cons c cs ih =>
    simp only [List.length_cons, List.cons_append, eatDigits,
      hg c (List.mem_cons_self c cs), if_pos]
    exact ih (fun d hd => hg d (List.mem_cons_of_mem _ hd))

theorem eatSep_digit_head (c : Char) (l : List Char) (hc : isDigitC c = true) :
    eatSep (c :: l) = c :: l := by
  have hdash : ¬ c = '-' := by
    intro h
    rw [h] at hc
    exact absurd hc (by decide)
  have hdot : ¬ c = '.' := by
    intro h
    rw [h] at hc
    exact absurd hc (by decide)
  simp [eatSep, hdash, hdot]

theorem eatSep_skip (s rest : List Char) (hs : s = [] ∨ s = [ '-' ] ∨ s = [ '.' ])
    (hrest : ∃ c r, rest = c :: r ∧ isDigitC c = true) :
    eatSep (s ++ rest) = rest := by
  rcases hs with rfl | rfl | rfl
  · rcases hrest with ⟨c, r, rfl, hc⟩
    exact eatSep_digit_head c r hc
  · simp [eatSep]
  · simp [eatSep]

/-- C2 amended: every bare 3-3-4 digit grouping whose optional
separators are a hyphen or a period (the `[-.]` class of the source
pattern, which does NOT include a space), optionally ending in a
period, is classified as voicemail. -/
theorem c2_theorem (g1 g2 g3 s1 s2 t : List Char)
    (h1 : g1.length = 3) (h2 : g2.length = 3) (h3 : g3.length = 4)
    (hd1 : ∀ c ∈ g1, isDigitC c = true) (hd2 : ∀ c ∈ g2, isDigitC c = true)
    (hd3 : ∀ c ∈ g3, isDigitC c = true)
    (hs1 : s1 = [] ∨ s1 = [ '-' ] ∨ s1 = [ '.' ])
    (hs2 : s2 = [] ∨ s2 = [ '-' ] ∨ s2 = [ '.' ])
    (ht : t = [] ∨ t = [ '.' ]) :
    isVoicemailMessage (String.mk (g1 ++ s1 ++ g2 ++ s2 ++ g3 ++ t)) = true := by
  have hg2head : ∃ c r, g2 = c :: r ∧ isDigitC c = true := by
    rcases g2 with _ | ⟨a, r⟩
    · simp at h2
    · exact ⟨a, r, rfl, hd2 a (List.mem_cons_self a r)⟩
  have hg3head : ∃ c r, g3 = c :: r ∧ isDigitC c = true := by
    rcases g3 with _ | ⟨a, r⟩
    · simp at h3
    · exact ⟨a, r, rfl, hd3 a (List.mem_cons_self a r)⟩
  have e1 : eatDigits 3 (g1 ++ (s1 ++ (g2 ++ (s2 ++ (g3 ++ t))))) =
      some (s1 ++ (g2 ++ (s2 ++ (g3 ++ t)))) := by
    rw [← h1]
    exact eatDigits_exact g1 _ hd1
  have e2 : eatSep (s1 ++ (g2 ++ (s2 ++ (g3 ++ t)))) = g2 ++ (s2 ++ (g3 ++ t)) := by
    apply eatSep_skip _ _ hs1
    rcases hg2head with ⟨c, r, rfl, hc⟩
    exact ⟨c, r ++ (s2 ++ (g3 ++ t)), by simp, hc⟩
  have e3 : eatDigits 3 (g2 ++ (s2 ++ (g3 ++ t))) = some (s2 ++ (g3 ++ t)) := by
    rw [← h2]
    exact eatDigits_exact g2 _ hd2
  have e4 : eatSep (s2 ++ (g3 ++ t)) = g3 ++ t := by
    apply eatSep_skip _ _ hs2
    rcases hg3head with ⟨c, r, rfl, hc⟩
    exact ⟨c, r ++ t, by simp, hc⟩
  have e5 : eatDigits 4 (g3 ++ t) = some t := by
    rw [← h3]
    exact eatDigits_exact g3 _ hd3
  have e6 : endOptDot t = true := by
    rcases ht with rfl | rfl <;> decide
  have hphone : phone334 (g1 ++ (s1 ++ (g2 ++ (s2 ++ (g3 ++ t))))) = true := by
    simp only [phone334, e1, e2, e3, e4, e5]
    exact e6
  have hfix : ∀ c ∈ g1 ++ (s1 ++ (g2 ++ (s2 ++ (g3 ++ t)))), jsToLowerC c = c := by
    intro c hc
    apply jsToLowerC_eq_self_of_low
    simp only [List.mem_append] at hc
    have hdig : ∀ d : Char, isDigitC d = true → d.toNat < 65 := by
      intro d hd
      simp [isDigitC] at hd
      omega
    rcases hc with hc | hc | hc | hc | hc | hc
    · exact hdig c (hd1 c hc)
    · rcases hs1 with rfl | rfl | rfl
      · simp at hc
      · simp at hc
        subst hc
        decide
      · simp at hc
        subst hc
        decide
    · exact hdig c (hd2 c hc)
    · rcases hs2 with rfl | rfl | rfl
      · simp at hc
      · simp at hc
        subst hc
        decide
      · simp at hc
        subst hc
        decide
    · exact hdig c (hd3 c hc)
    · rcases ht with rfl | rfl
      · simp at hc
      · simp at hc
        subst hc
        decide
  have hlow : jsToLowerL (g1 ++ (s1 ++ (g2 ++ (s2 ++ (g3 ++ t))))) =
      g1 ++ (s1 ++ (g2 ++ (s2 ++ (g3 ++ t)))) := by
    unfold jsToLowerL
    calc List.map jsToLowerC (g1 ++ (s1 ++ (g2 ++ (s2 ++ (g3 ++ t)))))
        = List.map id (g1 ++ (s1 ++ (g2 ++ (s2 ++ (g3 ++ t))))) := List.map_congr_left hfix
      _ = g1 ++ (s1 ++ (g2 ++ (s2 ++ (g3 ++ t)))) := List.map_id _
  have hauto : ∃ x ∈ voicemailPatterns,
      x (jsToLowerL (g1 ++ (s1 ++ (g2 ++ (s2 ++ (g3 ++ t)))))) = true := by
    refine ⟨phone334, by simp [voicemailPatterns], ?_⟩
    rw [hlow]
    exact hphone
  cases h333 : pat333 (jsTrimL (g1 ++ (s1 ++ (g2 ++ (s2 ++ (g3 ++ t)))))) with
  | true => simp [isVoicemailMessage, h333]
  | false =>
    simp [isVoicemailMessage, h333]
    left
    left
    exact hauto

/-- C2 witness: the hyphen-separated grouping "858-386-6200" is
classified as voicemail by the amended claim. -/
theorem c2_witness :
    isVoicemailMessage (String.mk (['8', '5', '8'] ++ [ '-' ] ++ ['3', '8', '6'] ++
      [ '-' ] ++ ['6', '2', '0', '0'] ++ [])) = true :=
  c2_theorem ['8', '5', '8'] ['3', '8', '6'] ['6', '2', '0', '0'] [ '-' ] [ '-' ] []
    (by decide) (by decide) (by decide) (by decide) (by decide) (by decide)
    (Or.inr (Or.inl rfl)) (Or.inr (Or.inl rfl)) (Or.inl rfl)

/-- C9: any utterance containing "tomorrow" (case-insensitively,
anywhere) is classified as session-ending — the last `endPhrases`
pattern has a bare `tomorrow` alternative with no anchors — and a
scheduling request such as "put a meeting on the calendar tomorrow"
is therefore routed to the session-end path (spoken closing line plus
hangup) rather than processed as a normal turn. -/
theorem c9_theorem :
    (∀ s : String, containsL "tomorrow".data (jsToLowerL s.data) = true →
      isSessionEnding s = true) ∧
    (isVoicemailMessage "put a meeting on the calendar tomorrow" = false ∧
     needsToolsCheck "put a meeting on the calendar tomorrow" = true ∧
     (handleGather c9Env c9Req emptyWorld).1 =
       Except.ok ⟨200, [RespItem.say "Good session. Execute those plans.",
         RespItem.hangup]⟩) := by
  constructor
  · intro s h
    have h1 : containsL "tomorrow".data (jsTrimL (jsToLowerL s.data)) = true :=
      containsL_jsTrimL _ _ (by decide) (by decide) h
    have h2 : containsL "tomorrow".data (jsToLowerL (jsTrimL s.data)) = true := by
      rw [jsTrimL_lower_comm]
      exact h1
    unfold isSessionEnding
    apply List.any_eq_true.mpr
    refine ⟨fun l => containsL "see you tomorrow".data l ||
      containsL "talk tomorrow".data l || containsL "tomorrow".data l,
      by simp [endPhrases], ?_⟩
    simp [h2]
  · exact ⟨by decide, by decide, by decide⟩

/-- C9 witness: a capitalized "Tomorrow" inside a longer sentence
triggers the end-intent classifier. -/
theorem c9_witness :
    containsL "tomorrow".data (jsToLowerL "Schedule it Tomorrow please".data) = true ∧
    isSessionEnding "Schedule it Tomorrow please" = true :=
  ⟨by decide, c9_theorem.1 "Schedule it Tomorrow please" (by decide)⟩

theorem endSessionW_fst_ok (env : Env) (callSid : String) (w : World)
    (h : env.endSessionOk = Except.ok ()) :
    (endSessionW env callSid w).1 = Except.ok () := by
  cases hl : lookupKey callSid w.sessions <;> simp [endSessionW, h, hl]

/-- C7: `handleSessionEnd` always returns a spoken line followed by a
hangup directive, and when session finalization fails it still hangs up
with the generic "Session complete. Talk tomorrow!" line. -/
theorem c7_theorem (env : Env) (callSid userInput : String) (w : World) :
    okSayHangup (handleSessionEnd env callSid userInput w).1 = true ∧
    (∀ e, env.endSessionOk = Except.error e →
      (handleSessionEnd env callSid userInput w).1 =
        Except.ok ⟨200, [RespItem.say sessionCompleteText, RespItem.hangup]⟩) := by
  refine ⟨?_, ?_⟩
  · simp only [handleSessionEnd]
    split
    · simp [okSayHangup]
    · simp [okSayHangup]
  · intro e he
    simp only [handleSessionEnd]
    split
    · rfl
    · next heq =>
      exfalso
      cases hl : lookupKey callSid (putSession callSid
          (setStateS "ending" (getSession callSid w).1) (getSession callSid w).2).sessions <;>
        simp [endSessionW, he, hl] at heq

/-- C7 witness: with a failing persistence layer the session-end path
still says the generic closing line and hangs up. -/
theorem c7_witness :
    c7Env.endSessionOk = Except.error "mongo down" ∧
    okSayHangup (handleSessionEnd c7Env "CA7" "that is all" emptyWorld).1 = true ∧
    (handleSessionEnd c7Env "CA7" "that is all" emptyWorld).1 =
      Except.ok ⟨200, [RespItem.say sessionCompleteText, RespItem.hangup]⟩ :=
  ⟨rfl, (c7_theorem c7Env "CA7" "that is all" emptyWorld).1,
   (c7_theorem c7Env "CA7" "that is all" emptyWorld).2 "mongo down" rfl⟩

/-- C6: on a normal turn (not voicemail, not session-ending, no terminal
status) `handleGather` never surfaces an error — it always produces an
HTTP 200 response — and whenever the inner pipeline throws, the response
is exactly the fixed fallback line with a keep-listening gather. -/
theorem c6_theorem (env : Env) (req : Request) (w : World)
    (hvm : isVoicemailMessage (jsTrimS (jsOrS req.speechResult "")) = false)
    (hse : isSessionEnding (jsTrimS (jsOrS req.speechResult "")) = false)
    (hst : ¬(req.callStatus = some "completed" ∨ req.callStatus = some "no-answer")) :
    (∃ r, (handleGather env req w).1 = Except.ok r) ∧
    (∀ e, (normalTurn env req (jsTrimS (jsOrS req.speechResult "")) w).1 = Except.error e →
      handleGather env req w =
        (Except.ok ⟨200, [RespItem.say fallbackReply, RespItem.gather]⟩,
         (normalTurn env req (jsTrimS (jsOrS req.speechResult "")) w).2)) := by
  constructor
  · rcases hN : normalTurn env req (jsTrimS (jsOrS req.speechResult "")) w with ⟨r, w₁⟩
    cases r with
    | ok v =>
      exact ⟨v, by simp [handleGather, hvm, hse, hst, hN]⟩
    | error e =>
      exact ⟨⟨200, [RespItem.say fallbackReply, RespItem.gather]⟩,
        by simp [handleGather, hvm, hse, hst, hN]⟩
  · intro e he
    rcases hN : normalTurn env req (jsTrimS (jsOrS req.speechResult "")) w with ⟨r, w₁⟩
    rw [hN] at he
    cases r with
    | ok v => exact absurd he (by simp)
    | error e2 =>
      simp [handleGather, hvm, hse, hst, hN]

/-- C6 witness: with every reply generator rejecting, the turn for
"hello" produces exactly the fallback reply and a keep-listening
directive. -/
theorem c6_witness :
    isVoicemailMessage (jsTrimS (jsOrS c6Req.speechResult "")) = false ∧
    isSessionEnding (jsTrimS (jsOrS c6Req.speechResult "")) = false ∧
    (normalTurn c6Env c6Req (jsTrimS (jsOrS c6Req.speechResult "")) emptyWorld).1 =
      Except.error "llm unavailable" ∧
    handleGather c6Env c6Req emptyWorld =
      (Except.ok ⟨200, [RespItem.say fallbackReply, RespItem.gather]⟩,
       (normalTurn c6Env c6Req (jsTrimS (jsOrS c6Req.speechResult "")) emptyWorld).2) :=
  ⟨by decide, by decide, by decide,
   (c6_theorem c6Env c6Req emptyWorld (by decide) (by decide) (by decide)).2
     "llm unavailable" (by decide)⟩

/-- C1: whenever the voicemail classifier accepts the utterance — with
no assumption at all about the end-intent classifier — `handleGather`
takes the voicemail path: the session is marked voicemail (type and
terminal state) and finalized out of the live store, the context is
cleared, and the response is the voicemail line plus a hangup
directive. -/
theorem c1_theorem (env : Env) (req : Request) (w : World)
    (hvm : isVoicemailMessage (jsTrimS (jsOrS req.speechResult "")) = true)
    (hlog : env.logMissed = Except.ok ())
    (hend : env.endSessionOk = Except.ok ()) :
    (handleGather env req w).1 =
      Except.ok ⟨200, [RespItem.say vmHangupText, RespItem.hangup]⟩ ∧
    lookupKey req.callSid (handleGather env req w).2.sessions = none ∧
    (∃ pre, (handleGather env req w).2.endedSessions =
      pre ++ [(req.callSid, markAsVoicemail (getSession req.callSid w).1)]) ∧
    lookupKey req.callSid (handleGather env req w).2.ctx = none := by
  have hmark : isTerminalState (markAsVoicemail (getSession req.callSid w).1).state = true := by
    simp [markAsVoicemail, isTerminalState]
  cases hnl : env.notionLogsDb with
  | true =>
    refine ⟨?_, ?_, ?_, ?_⟩
    · simp [handleGather, hvm, hnl, hlog, hend, endSessionW, putSession, ctxClear,
        lookupKey_setKey_self, lookupKey_removeKey_self, hmark]
    · simp [handleGather, hvm, hnl, hlog, hend, endSessionW, putSession, ctxClear,
        lookupKey_setKey_self, lookupKey_removeKey_self, hmark]
    · simp [handleGather, hvm, hnl, hlog, hend, endSessionW, putSession, ctxClear,
        lookupKey_setKey_self, hmark]
    · simp [handleGather, hvm, hnl, hlog, hend, endSessionW, putSession, ctxClear,
        lookupKey_setKey_self, lookupKey_removeKey_self, hmark]
  | false =>
    refine ⟨?_, ?_, ?_, ?_⟩
    · simp [handleGather, hvm, hnl, hlog, hend, endSessionW, putSession, ctxClear,
        lookupKey_setKey_self, lookupKey_removeKey_self, hmark]
    · simp [handleGather, hvm, hnl, hlog, hend, endSessionW, putSession, ctxClear,
        lookupKey_setKey_self, lookupKey_removeKey_self, hmark]
    · simp [handleGather, hvm, hnl, hlog, hend, endSessionW, putSession, ctxClear,
        lookupKey_setKey_self, hmark]
    · simp [handleGather, hvm, hnl, hlog, hend, endSessionW, putSession, ctxClear,
        lookupKey_setKey_self, lookupKey_removeKey_self, hmark]

/-- C1 witness: "you may hang up" satisfies BOTH classifiers (it contains
"hang up"), and the voicemail path still wins. -/
theorem c1_witness :
    isVoicemailMessage (jsTrimS (jsOrS c1Req.speechResult "")) = true ∧
    isSessionEnding (jsTrimS (jsOrS c1Req.speechResult "")) = true ∧
    ((handleGather c1Env c1Req emptyWorld).1 =
       Except.ok ⟨200, [RespItem.say vmHangupText, RespItem.hangup]⟩ ∧
     lookupKey c1Req.callSid (handleGather c1Env c1Req emptyWorld).2.sessions = none ∧
     (∃ pre, (handleGather c1Env c1Req emptyWorld).2.endedSessions =
       pre ++ [(c1Req.callSid, markAsVoicemail (getSession c1Req.callSid emptyWorld).1)]) ∧
     lookupKey c1Req.callSid (handleGather c1Env c1Req emptyWorld).2.ctx = none) :=
  ⟨by decide, by decide, c1_theorem c1Env c1Req emptyWorld (by decide) rfl rfl⟩

theorem normalTurn_keeps_session (env : Env) (req : Request) (u : String) (w : World) :
    lookupKey req.callSid (normalTurn env req u w).2.sessions ≠ none := by
  simp only [normalTurn, finishTurn]
  repeat' split
  all_goals simp [putSession, ctxSet, lookupKey_setKey_self]

/-- C5 amended: `handleGather` treats only `completed` and `no-answer`
as terminal — it finalizes the session and emits no spoken response but
leaves the conversation context untouched — while `failed` falls through
to normal-turn processing (the session stays live); `handleVoice`, by
contrast, treats `completed`, `no-answer` AND `failed` as terminal and
both finalizes the session and clears the context. -/
theorem c5_theorem :
    (∀ (env : Env) (req : Request) (w : World),
      (req.callStatus = some "completed" ∨ req.callStatus = some "no-answer") →
      isVoicemailMessage (jsTrimS (jsOrS req.speechResult "")) = false →
      isSessionEnding (jsTrimS (jsOrS req.speechResult "")) = false →
      env.endSessionOk = Except.ok () →
      (handleGather env req w).1 = Except.ok ⟨200, []⟩ ∧
      lookupKey req.callSid (handleGather env req w).2.sessions = none ∧
      (handleGather env req w).2.ctx = w.ctx) ∧
    (∀ (env : Env) (req : Request) (w : World),
      (req.callStatus = some "completed" ∨ req.callStatus = some "no-answer" ∨
        req.callStatus = some "failed") →
      env.endSessionOk = Except.ok () →
      (handleVoice env req w).1 = Except.ok ⟨200, []⟩ ∧
      lookupKey req.callSid (handleVoice env req w).2.sessions = none ∧
      lookupKey req.callSid (handleVoice env req w).2.ctx = none) ∧
    (∀ (env : Env) (req : Request) (w : World),
      req.callStatus = some "failed" →
      isVoicemailMessage (jsTrimS (jsOrS req.speechResult "")) = false →
      isSessionEnding (jsTrimS (jsOrS req.speechResult "")) = false →
      lookupKey req.callSid (handleGather env req w).2.sessions ≠ none) := by
  refine ⟨?_, ?_, ?_⟩
  · intro env req w hst hvm hse hend
    cases hl : lookupKey req.callSid w.sessions with
    | none =>
      refine ⟨?_, ?_, ?_⟩ <;>
        simp [handleGather, hvm, hse, hst, endSessionW, hend, hl]
    | some s =>
      refine ⟨?_, ?_, ?_⟩ <;>
        simp [handleGather, hvm, hse, hst, endSessionW, hend, hl, lookupKey_removeKey_self]
  · intro env req w hst hend
    cases hl : lookupKey req.callSid w.sessions with
    | none =>
      refine ⟨?_, ?_, ?_⟩ <;>
        simp [handleVoice, hst, endSessionW, hend, hl, ctxClear, lookupKey_removeKey_self]
    | some s =>
      refine ⟨?_, ?_, ?_⟩ <;>
        simp [handleVoice, hst, endSessionW, hend, hl, ctxClear, lookupKey_removeKey_self]
  · intro env req w hstF hvm hse
    have hkeep := normalTurn_keeps_session env req (jsTrimS (jsOrS req.speechResult "")) w
    rcases hN : normalTurn env req (jsTrimS (jsOrS req.speechResult "")) w with ⟨r, w₁⟩
    rw [hN] at hkeep
    cases r with
    | ok v => simpa [handleGather, hvm, hse, hstF, hN] using hkeep
    | error e => simpa [handleGather, hvm, hse, hstF, hN] using hkeep

/-- C5 counterexample: on a `completed` status `handleGather` finalizes
and stays silent, but the conversation context for the call id is NOT
cleared — it still holds the previous history afterwards. -/
theorem c5_counterexample :
    (handleGather baseEnv c5Req c5World).1 = Except.ok ⟨200, []⟩ ∧
    lookupKey "CA5" (handleGather baseEnv c5Req c5World).2.ctx =
      some [⟨"assistant", "hi"⟩] := by decide

/-- C5 witness: concrete instances of all three amended parts — a
`completed` gather event, a `failed` voice event, and a `failed` gather
event that keeps the session live. -/
theorem c5_witness :
    ((handleGather baseEnv c5Req c5World).1 = Except.ok ⟨200, []⟩ ∧
     lookupKey "CA5" (handleGather baseEnv c5Req c5World).2.sessions = none ∧
     (handleGather baseEnv c5Req c5World).2.ctx = c5World.ctx) ∧
    ((handleVoice baseEnv c5VoiceReq emptyWorld).1 = Except.ok ⟨200, []⟩ ∧
     lookupKey "CA5V" (handleVoice baseEnv c5VoiceReq emptyWorld).2.sessions = none ∧
     lookupKey "CA5V" (handleVoice baseEnv c5VoiceReq emptyWorld).2.ctx = none) ∧
    lookupKey "CA5" (handleGather baseEnv c5FailReq c5World).2.sessions ≠ none :=
  ⟨c5_theorem.1 baseEnv c5Req c5World (Or.inl rfl) (by decide) (by decide) rfl,
   c5_theorem.2.1 baseEnv c5VoiceReq emptyWorld (Or.inr (Or.inr rfl)) rfl,
   c5_theorem.2.2 baseEnv c5FailReq c5World rfl (by decide) (by decide)⟩

/-- C4 counterexample: in the successful tool-dispatch scenario a
decision IS recorded — the turn processor appends
"Added: call the dentist" to the session's decisions when the tool
result is successful (`session.addDecision` in the tool branch), even
though the commitment pattern does not match. -/
theorem c4_counterexample :
    (lookupKey "CA4" (handleGather c4Env c4Req emptyWorld).2.sessions).map
      Session.decisions = some ["Added: call the dentist"] := by decide

/-- C4 amended: for the successful simple tool request the spoken reply
is built from the dispatch success message, exactly one exchange is
recorded with its `toolUsed` metadata set, the commitment pattern does
not match (so no "User commitment" decision is recorded) — but one
tool-success decision "Added: call the dentist" IS recorded. -/
theorem c4_theorem :
    (handleGather c4Env c4Req emptyWorld).1 =
      Except.ok ⟨200, [RespItem.say "Got it. Added to your tasks.", RespItem.gather]⟩ ∧
    (lookupKey "CA4" (handleGather c4Env c4Req emptyWorld).2.sessions).map
      Session.exchanges =
      some [⟨"add a reminder to call the dentist", "Got it. Added to your tasks.",
        some "add_task", some true, none, none⟩] ∧
    (lookupKey "CA4" (handleGather c4Env c4Req emptyWorld).2.sessions).map
      Session.decisions = some ["Added: call the dentist"] ∧
    commitmentCheck "add a reminder to call the dentist" = false := by decide
